import Mathlib

/-!
Verification development for the course-factory orchestration core:
the provider router (`course_factory/llm/router.py`), the local provider
(`course_factory/llm/providers.py`), the pipeline engine
(`course_factory/pipeline/engine.py`) and the event bus
(`course_factory/pipeline/events.py`), shallowly embedded in Lean.
-/

namespace CourseFactory

/-! ## JSON values

Embedding of the JSON-representable values that checkpoints and run
contexts hold.  JSON numbers are modelled as integers; the claims under
study never depend on fractional numerics. -/

inductive JValue where
  | null : JValue
  | bool (b : Bool) : JValue
  | num (n : Int) : JValue
  | str (s : String) : JValue
  | arr (xs : List JValue) : JValue
  | obj (fields : List (String × JValue)) : JValue
  deriving Repr

/-- Embedding of a Python value stored in a run context: either a value the
`json` module can serialize, or a non-serializable object carrying only its
textual `repr`. -/
inductive PyValue where
  | json (v : JValue) : PyValue
  | nonserializable (r : String) : PyValue
  deriving Repr

/-! ## Python dict operations

Association-list model of Python `dict` semantics on string keys:
lookup finds the first matching key; assignment replaces the value of an
existing key in place and appends a fresh key at the end; `update`
assigns every pair of the argument in order. -/

def dictGet {α : Type} (d : List (String × α)) (k : String) : Option α :=
  (d.find? (fun p => p.1 == k)).map (fun p => p.2)

def dictSet {α : Type} : List (String × α) → String → α → List (String × α)
  | [], k, v => [(k, v)]
  | p :: rest, k, v => if p.1 == k then (k, v) :: rest else p :: dictSet rest k v

def dictUpdate {α : Type} (d e : List (String × α)) : List (String × α) :=
  e.foldl (fun acc p => dictSet acc p.1 p.2) d

/-! ## Router: task resolution (`LLMRouter._resolve_task`)

`Settings` models the settings object consulted by `_get_setting`: each
field is one settings key, and the empty string models "unset or falsy"
(the code tests overrides with Python truthiness). -/

structure Settings where
  ollama_model : String := ""
  cloud_provider : String := ""
  cloud_model : String := ""
  anthropic_api_key : String := ""
  openai_api_key : String := ""
  deriving Repr, DecidableEq

/-- Embedding of the module-level `TASK_MODELS` table of `router.py`. -/
def TASK_MODELS : List (String × String × String) :=
  [ ("outline", "ollama", "qwen2.5:14b"),
    ("script_writing", "ollama", "qwen2.5:14b"),
    ("code_generation", "ollama", "qwen2.5-coder:14b"),
    ("quiz_generation", "ollama", "qwen2.5:14b"),
    ("review", "anthropic", "claude-sonnet-4-5-20250929"),
    ("summarize", "ollama", "qwen2.5:14b"),
    ("research", "anthropic", "claude-sonnet-4-5-20250929") ]

/-- Dictionary lookup in `TASK_MODELS` (`TASK_MODELS.get(task)`). -/
def taskModelsGet (task : String) : Option (String × String) :=
  (TASK_MODELS.find? (fun e => e.1 == task)).map (fun e => e.2)

/-- Value of `TASK_MODELS["outline"]`, the fallback used for unknown tasks. -/
def outlineDefault : String × String := ("ollama", "qwen2.5:14b")

/-- Embedding of `LLMRouter._resolve_task`: resolve a task name to a
`(provider_name, model_name)` pair, applying the settings overrides.  The
Python code is total (it logs a warning on an unknown task and falls back
to `TASK_MODELS["outline"]`, and never raises). -/
def resolve_task (s : Settings) (task : String) : String × String :=
  let d := (taskModelsGet task).getD outlineDefault
  if d.1 == "ollama" then
    if s.ollama_model ≠ "" then ("ollama", s.ollama_model) else d
  else
    ((if s.cloud_provider ≠ "" then s.cloud_provider else d.1),
     (if s.cloud_model ≠ "" then s.cloud_model else d.2))

/-! ## Router: provider cache state machine (`LLMRouter.get_provider`) -/

/-- Embedding of one entry of the `self._providers` dict: the cache key it
is stored under, and the provider instance abstracted to its
`get_provider_name()` / `get_model_name()` values. -/
structure ProviderEntry where
  key : String
  pname : String
  model : String
  deriving Repr, DecidableEq

/-- Embedding of the mutable state of an `LLMRouter` instance:
`self._providers` (a dict, modelled as its entry list in insertion order)
and `self._active_local_model`. -/
structure RouterState where
  providers : List ProviderEntry
  active : Option String
  deriving Repr, DecidableEq

/-- Router state as built by `LLMRouter.__init__`. -/
def initialRouterState : RouterState := ⟨[], none⟩

/-- Embedding of the cache key expression `f"{provider_name}:{model}"`. -/
def cacheKey (p m : String) : String := p ++ ":" ++ m

/-- Embedding of the success condition of `LLMRouter._create_provider`:
constructing an Ollama provider always succeeds, a cloud provider requires
its API key, and an unknown provider name raises `ValueError`. -/
def createProviderOk (s : Settings) (p : String) : Bool :=
  if p == "ollama" then true
  else if p == "anthropic" then s.anthropic_api_key ≠ ""
  else if p == "openai" then s.openai_api_key ≠ ""
  else false

/-- Embedding of the VRAM-management block of `get_provider`: when the
requested provider is `"ollama"` and a different local model is active,
unload the previous provider (recorded in the returned event list), delete
it from the cache, and clear `_active_local_model`.  Returns the state
after the block together with the keys whose providers had `unload()`
awaited, in call order. -/
def evictForLocal (st : RouterState) (provider_name key : String) :
    RouterState × List String :=
  if provider_name == "ollama" then
    match st.active with
    | some ak =>
        if ak == key then (st, [])
        else
          (⟨st.providers.filter (fun e => !(e.key == ak)), none⟩,
           if st.providers.any (fun e => e.key == ak) then [ak] else [])
    | none => (st, [])
  else (st, [])

/-- Embedding of `LLMRouter.get_provider`, as a transition on
`RouterState` taking the resolved `(provider_name, model)` pair.  Returns
the state after the call, the keys unloaded during the call, and whether
the call returned normally (`false` models `_create_provider` raising, in
which case the state visible to the caller is unchanged because eviction
only happens on the ollama path, where creation cannot fail). -/
def get_provider (s : Settings) (st : RouterState) (pm : String × String) :
    RouterState × List String × Bool :=
  let key := cacheKey pm.1 pm.2
  if st.providers.any (fun e => e.key == key) then
    (st, [], true)
  else
    let ev := evictForLocal st pm.1 key
    if createProviderOk s pm.1 then
      (⟨ev.1.providers ++ [⟨key, pm.1, pm.2⟩],
        if pm.1 == "ollama" then some key else ev.1.active⟩,
       ev.2, true)
    else (ev.1, ev.2, false)

/-- Embedding of `get_provider(task)` as called by router clients: the
task is first resolved via `_resolve_task`. -/
def get_provider_for_task (s : Settings) (st : RouterState) (task : String) :
    RouterState × List String × Bool :=
  get_provider s st (resolve_task s task)

/-- Embedding of `LLMRouter.unload_all`: `unload()` each cached provider
whose `get_provider_name()` is `"ollama"`, clear the whole cache, and
reset `_active_local_model`. -/
def unload_all (st : RouterState) : RouterState × List String :=
  (⟨[], none⟩, (st.providers.filter (fun e => e.pname == "ollama")).map (fun e => e.key))

/-- One observable step of a router trace: the state before a
`get_provider` call, the state after it, and the unloads it performed. -/
structure RStep where
  pre : RouterState
  post : RouterState
  unloads : List String
  deriving Repr, DecidableEq

/-- Trace of a sequence of `get_provider(task)` calls against one router
instance, recording every intermediate state. -/
def routerSteps (s : Settings) : List String → RouterState → List RStep
  | [], _ => []
  | task :: rest, st =>
      let r := get_provider_for_task s st task
      ⟨st, r.1, r.2.1⟩ :: routerSteps s rest r.1

/-- Trace starting from a freshly initialized router. -/
def routerTrace (s : Settings) (tasks : List String) : List RStep :=
  routerSteps s tasks initialRouterState

/-- Number of cache entries whose provider is `"ollama"` (local kind). -/
def localCount (st : RouterState) : Nat :=
  (st.providers.filter (fun e => e.pname == "ollama")).length

/-- Invariant maintained by the router: cache keys are pairwise distinct
(they are the keys of a Python dict), and every local-kind entry is the
one recorded in `_active_local_model`. -/
def RouterInv (st : RouterState) : Prop :=
  (st.providers.map (fun e => e.key)).Nodup ∧
  ∀ e ∈ st.providers, e.pname = "ollama" → st.active = some e.key

/-! ## Local provider (`OllamaProvider.unload`) -/

/-- Outcome of the HTTP request `unload` issues to `/api/generate`:
either a response was received (with its status code and body text), or
the request raised an exception (network error, timeout, ...). -/
inductive HttpOutcome where
  | resp (status : Nat) (body : String) : HttpOutcome
  | exn (msg : String) : HttpOutcome
  deriving Repr, DecidableEq

/-- Embedding of the body of `OllamaProvider.unload` inside its `try`:
a 200 response logs success, any other status logs a warning, and an
exception propagates out of the body. -/
def ollama_unload_body (o : HttpOutcome) : Except String Unit :=
  match o with
  | .resp _ _ => .ok ()
  | .exn m => .error m

/-- Embedding of `OllamaProvider.unload`: the `try` body wrapped in the
`except Exception` clause, which logs the failure and returns normally. -/
def ollama_unload (o : HttpOutcome) : Except String Unit :=
  match ollama_unload_body o with
  | .ok () => .ok ()
  | .error _ => .ok ()

/-! ## Pipeline engine (`PipelineEngine`) -/

/-- Run context threaded through the stages: a Python dict from string
keys to arbitrary values. -/
abbrev Ctx : Type := List (String × PyValue)

/-- Embedding of a `Stage` as consumed by the engine: its `name` property
and its `validate` / `execute` coroutines, which either return a value or
raise (modelled as `Except` with the exception's message). -/
structure StageM where
  name : String
  validate : Ctx → Except String Bool
  execute : Ctx → Except String Ctx

/-- Event types emitted by the engine. -/
inductive EvType where
  | stage_start : EvType
  | stage_complete : EvType
  | stage_error : EvType
  deriving Repr, DecidableEq

/-- Errors the engine raises, each naming the failing stage
(`RuntimeError(f"Validation failed for stage ...")`,
`RuntimeError(f"Preconditions not met for stage ...")`,
`RuntimeError(f"Stage ... failed: ...")`). -/
inductive RunErr where
  | validationRaised (stage : String) (msg : String) : RunErr
  | preconditionsNotMet (stage : String) : RunErr
  | executionFailed (stage : String) (msg : String) : RunErr
  deriving Repr, DecidableEq

/-- Name of the stage a `RunErr` reports. -/
def RunErr.stageName : RunErr → String
  | .validationRaised st _ => st
  | .preconditionsNotMet st => st
  | .executionFailed st _ => st

/-- Auxiliary payload of a `PipelineEvent`: empty for `stage_start`, the
context key list for `stage_complete`, the error information for
`stage_error`. -/
inductive EvData where
  | noData : EvData
  | ctxKeys (ks : List String) : EvData
  | errInfo (e : RunErr) : EvData
  deriving Repr, DecidableEq

/-- Embedding of `PipelineEvent`, restricted to the fields the engine
fills deterministically (the wall-clock timestamp and the constant
course id are omitted). -/
structure Event where
  event_type : EvType
  stage : String
  data : EvData
  deriving Repr, DecidableEq

/-- The `stage_start` event emitted before validating a stage. -/
def startEv (name : String) : Event := ⟨.stage_start, name, .noData⟩

/-- The `stage_complete` event emitted after checkpointing, carrying the
new context's key list (`{"context_keys": list(context.keys())}`). -/
def completeEv (name : String) (ctx : Ctx) : Event :=
  ⟨.stage_complete, name, .ctxKeys (ctx.map (fun p => p.1))⟩

/-- The `stage_error` event emitted by `_handle_error`, carrying the
exception information. -/
def errorEv (name : String) (e : RunErr) : Event := ⟨.stage_error, name, .errInfo e⟩

/-- Failure analysis of one stage at a given context, mirroring the
per-stage body of `PipelineEngine.run`: `validate` raising, `validate`
returning `False`, or `execute` raising each produce the corresponding
engine error; otherwise the stage succeeds. -/
def stageFailure (s : StageM) (ctx : Ctx) : Option RunErr :=
  match s.validate ctx with
  | .error msg => some (.validationRaised s.name msg)
  | .ok false => some (.preconditionsNotMet s.name)
  | .ok true =>
      match s.execute ctx with
      | .error msg => some (.executionFailed s.name msg)
      | .ok _ => none

/-- Observable outcome of (the stage loop of) `PipelineEngine.run`: the
events emitted in order, the checkpoints written in order (stage name and
the context passed to `save_checkpoint`), and the returned context or the
raised error. -/
structure RunResult where
  events : List Event
  checkpoints : List (String × Ctx)
  result : Except RunErr Ctx
  deriving Repr

/-- Embedding of the stage loop of `PipelineEngine.run` from a given
start point: for each stage emit `stage_start`, validate, execute,
persist a checkpoint, emit `stage_complete`; on any failure emit
`stage_error` and raise. -/
def runStages : List StageM → Ctx → RunResult
  | [], ctx => ⟨[], [], .ok ctx⟩
  | s :: rest, ctx =>
      match s.validate ctx with
      | .error msg =>
          ⟨[startEv s.name, errorEv s.name (.validationRaised s.name msg)], [],
           .error (.validationRaised s.name msg)⟩
      | .ok false =>
          ⟨[startEv s.name, errorEv s.name (.preconditionsNotMet s.name)], [],
           .error (.preconditionsNotMet s.name)⟩
      | .ok true =>
          match s.execute ctx with
          | .error msg =>
              ⟨[startEv s.name, errorEv s.name (.executionFailed s.name msg)], [],
               .error (.executionFailed s.name msg)⟩
          | .ok ctx2 =>
              let r := runStages rest ctx2
              ⟨startEv s.name :: completeEv s.name ctx2 :: r.events,
               (s.name, ctx2) :: r.checkpoints,
               r.result⟩

/-- Embedding of the resume-index computation of `PipelineEngine.run`:
the index after the first stage whose `name` equals the checkpointed
stage name, or 0 if no stage matches. -/
def startIndex (stages : List StageM) (lastName : String) : Nat :=
  match stages.findIdx? (fun st => st.name == lastName) with
  | some i => i + 1
  | none => 0

/-- Embedding of `PipelineEngine.run` given the result of
`load_checkpoint`: with no checkpoint all stages run on the initial
context; with a checkpoint the saved context is merged over the initial
one (`context.update(saved_context)`) and execution starts at the resume
index. -/
def engineRun (stages : List StageM) (checkpoint : Option (String × Ctx))
    (init : Ctx) : RunResult :=
  match checkpoint with
  | none => runStages stages init
  | some (nm, saved) =>
      runStages (stages.drop (startIndex stages nm)) (dictUpdate init saved)

/-! ## Checkpoint persistence
(`save_checkpoint` / `load_checkpoint` / `_serialize_context`)

The JSON text layer (`json.dumps` on write, `json.loads` on read) is
modelled as the identity on parsed JSON values: a checkpoint file's
content is represented by its parse result, `none` standing for text that
fails to parse. -/

/-- Python exceptions relevant to `load_checkpoint`. -/
inductive PyErr where
  | jsonDecodeError : PyErr
  | keyError : PyErr
  | typeError : PyErr
  deriving Repr, DecidableEq

/-- Lookup of a key in a parsed JSON object's field list. -/
def objGet (fields : List (String × JValue)) (k : String) : Option JValue :=
  (fields.find? (fun p => p.1 == k)).map (fun p => p.2)

/-- Embedding of the Python subscript `payload[k]`: on a dict it returns
the value or raises `KeyError`; on any non-dict JSON value (list, string,
number, bool, None) it raises `TypeError`. -/
def subscriptItem (v : JValue) (k : String) : Except PyErr JValue :=
  match v with
  | .obj fields =>
      match objGet fields k with
      | some w => .ok w
      | none => .error .keyError
  | _ => .error .typeError

/-- Embedding of the `try` body of `PipelineEngine.load_checkpoint` on an
existing file: parse the text (a parse failure raises
`json.JSONDecodeError`), then return `payload["stage"], payload["context"]`. -/
def load_checkpoint_body (parsed : Option JValue) : Except PyErr (JValue × JValue) :=
  match parsed with
  | none => .error .jsonDecodeError
  | some payload =>
      match subscriptItem payload "stage" with
      | .error e => .error e
      | .ok stage =>
          match subscriptItem payload "context" with
          | .error e => .error e
          | .ok ctx => .ok (stage, ctx)

/-- Embedding of `PipelineEngine.load_checkpoint` on an existing file:
the body's `JSONDecodeError` and `KeyError` are caught and turn into
`None`; any other exception (notably `TypeError`) propagates. -/
def load_checkpoint_parsed (parsed : Option JValue) :
    Except PyErr (Option (JValue × JValue)) :=
  match load_checkpoint_body parsed with
  | .ok r => .ok (some r)
  | .error .jsonDecodeError => .ok none
  | .error .keyError => .ok none
  | .error e => .error e

/-- JSON value a context value is checkpointed as: a serializable value
is kept, a non-serializable one is replaced by its `repr` string
(the `except (TypeError, ValueError)` branch of `_serialize_context`). -/
def toJson : PyValue → JValue
  | .json v => v
  | .nonserializable r => .str r

/-- Embedding of `PipelineEngine._serialize_context`. -/
def serialize_context (ctx : Ctx) : List (String × JValue) :=
  ctx.map (fun p => (p.1, toJson p.2))

/-- Embedding of the payload `PipelineEngine.save_checkpoint` writes
(as its parsed JSON value): the course id, the completed stage name, the
timestamp, and the serialized context. -/
def save_checkpoint_payload (course_id stage_name ts : String) (ctx : Ctx) : JValue :=
  .obj [ ("course_id", .str course_id),
         ("stage", .str stage_name),
         ("timestamp", .str ts),
         ("context", .obj (serialize_context ctx)) ]

/-! ## Event bus (`EventBus.emit_async`) -/

/-- Subscriber callback: receives an event and either returns or raises. -/
def Callback : Type := Event → Except String Unit

/-- Embedding of `EventBus.emit_async`: invoke every subscriber in
registration order; each invocation sits in its own `try`/`except`, so a
raising callback is logged and the loop continues.  The returned list
records each invocation's outcome; the function itself never raises. -/
def emit_async : List Callback → Event → List (Except String Unit)
  | [], _ => []
  | cb :: rest, ev => cb ev :: emit_async rest ev

/-- Stage loop of `PipelineEngine.run` with a subscriber list attached to
the event bus: identical control flow to `runStages`, additionally
recording the outcome list of every `emit_async` call. -/
def runStagesSubs (subs : List Callback) :
    List StageM → Ctx → RunResult × List (List (Except String Unit))
  | [], ctx => (⟨[], [], .ok ctx⟩, [])
  | s :: rest, ctx =>
      let log0 := emit_async subs (startEv s.name)
      match s.validate ctx with
      | .error msg =>
          (⟨[startEv s.name, errorEv s.name (.validationRaised s.name msg)], [],
            .error (.validationRaised s.name msg)⟩,
           [log0, emit_async subs (errorEv s.name (.validationRaised s.name msg))])
      | .ok false =>
          (⟨[startEv s.name, errorEv s.name (.preconditionsNotMet s.name)], [],
            .error (.preconditionsNotMet s.name)⟩,
           [log0, emit_async subs (errorEv s.name (.preconditionsNotMet s.name))])
      | .ok true =>
          match s.execute ctx with
          | .error msg =>
              (⟨[startEv s.name, errorEv s.name (.executionFailed s.name msg)], [],
                .error (.executionFailed s.name msg)⟩,
               [log0, emit_async subs (errorEv s.name (.executionFailed s.name msg))])
          | .ok ctx2 =>
              let r := runStagesSubs subs rest ctx2
              (⟨startEv s.name :: completeEv s.name ctx2 :: r.1.events,
                (s.name, ctx2) :: r.1.checkpoints,
                r.1.result⟩,
               log0 :: emit_async subs (completeEv s.name ctx2) :: r.2)

/-! ## Theorems -/

/-- Claim C8: for every task name not present in `TASK_MODELS` and every
settings configuration, resolution never raises (`resolve_task` is total)
and returns exactly the same `(provider, model)` pair as resolving the
default task `"outline"`. -/
theorem unknown_task_falls_back_to_outline (s : Settings) (task : String)
    (h : taskModelsGet task = none) :
    resolve_task s task = resolve_task s "outline" := by
  have houtline : taskModelsGet "outline" = some outlineDefault := by decide
  simp [resolve_task, h, houtline]

/-- Witness for C8: the unknown task `"nonexistent-task"` resolves to the
same pair as `"outline"`. -/
theorem unknown_task_falls_back_to_outline_witness :
    taskModelsGet "nonexistent-task" = none ∧
    resolve_task {} "nonexistent-task" = resolve_task {} "outline" :=
  ⟨by decide, unknown_task_falls_back_to_outline {} "nonexistent-task" (by decide)⟩

/-- Claim C2, counterexample: with only `cloud_model` overridden (and
`cloud_provider` unset), resolving the cloud task `"review"` does yield
the default provider `"anthropic"` paired with the overridden model —
the override is not applied wholesale as the claim states. -/
theorem cloud_model_only_override_counterexample :
    resolve_task { cloud_model := "claude-opus-test" } "review"
      = ("anthropic", "claude-opus-test") ∧
    taskModelsGet "review" = some ("anthropic", "claude-sonnet-4-5-20250929") ∧
    "claude-opus-test" ≠ "claude-sonnet-4-5-20250929" :=
  ⟨by decide, by decide, by decide⟩

/-- Claim C2 as amended: the cloud provider and cloud model overrides
apply componentwise; with only the cloud model override configured, a
cloud task resolves to its default provider paired with the overridden
model. -/
theorem cloud_model_override_keeps_default_provider (s : Settings)
    (task dp dm : String)
    (h : taskModelsGet task = some (dp, dm)) (hcloud : dp ≠ "ollama")
    (hp : s.cloud_provider = "") (hm : s.cloud_model ≠ "") :
    resolve_task s task = (dp, s.cloud_model) := by
  simp [resolve_task, h, hcloud, hp, hm]

/-- Witness for the amended C2 at the task `"review"`. -/
theorem cloud_model_override_keeps_default_provider_witness :
    resolve_task { cloud_model := "claude-opus-test" } "review"
      = ("anthropic", "claude-opus-test") :=
  cloud_model_override_keeps_default_provider _ "review" "anthropic"
    "claude-sonnet-4-5-20250929" (by decide) (by decide) rfl (by decide)

/-- Claim C9: for every outcome of the eviction request (any response
status or a raised exception), `OllamaProvider.unload` returns normally. -/
theorem ollama_unload_never_raises (o : HttpOutcome) :
    ollama_unload o = .ok () := by
  cases o <;> rfl

/-- Claim C7: a checkpoint saved for a context and loaded again returns
the saved stage name together with the context serialized field by field;
`toJson` keeps every JSON-representable value unchanged, so such contexts
round-trip deep-equal, and non-representable values come back as their
textual fallback. -/
theorem checkpoint_round_trip (course_id stage_name ts : String) (ctx : Ctx) :
    load_checkpoint_parsed (some (save_checkpoint_payload course_id stage_name ts ctx)) =
      .ok (some (.str stage_name, .obj (ctx.map (fun p => (p.1, toJson p.2))))) ∧
    (∀ v : JValue, toJson (.json v) = v) ∧
    (∀ r : String, toJson (.nonserializable r) = .str r) :=
  ⟨rfl, fun _ => rfl, fun _ => rfl⟩

/-- Claim C3, counterexample: checkpoint content that parses to a JSON
array (valid JSON, but not an object of the expected shape) makes
`load_checkpoint` raise a `TypeError` instead of returning `None`. -/
theorem corrupt_checkpoint_nonobject_counterexample :
    load_checkpoint_parsed (some (.arr [.num 1, .num 2])) = .error .typeError ∧
    load_checkpoint_parsed (some (.arr [.num 1, .num 2])) ≠ .ok none :=
  ⟨rfl, fun h => Except.noConfusion h⟩

/-- Claim C3 as amended: checkpoint content that fails to parse as JSON,
or parses to an object lacking the required field `"stage"` or
`"context"`, makes `load_checkpoint` return `None`, and a run without a
checkpoint starts from the beginning; content parsing to a non-object
value instead raises. -/
theorem corrupt_checkpoint_treated_as_none (parsed : Option JValue)
    (stages : List StageM) (init : Ctx)
    (h : parsed = none ∨ ∃ fields, parsed = some (.obj fields) ∧
          (objGet fields "stage" = none ∨ objGet fields "context" = none)) :
    load_checkpoint_parsed parsed = .ok none ∧
    engineRun stages none init = runStages stages init := by
  refine ⟨?_, rfl⟩
  rcases h with h | ⟨fields, rfl, h⟩
  · subst h; rfl
  · rcases h with h | h
    · simp [load_checkpoint_parsed, load_checkpoint_body, subscriptItem, h]
    · cases hs : objGet fields "stage" with
      | none => simp [load_checkpoint_parsed, load_checkpoint_body, subscriptItem, hs]
      | some w => simp [load_checkpoint_parsed, load_checkpoint_body, subscriptItem, hs, h]

/-- Witness for the amended C3: an object missing the `"stage"` field is
treated as no checkpoint. -/
theorem corrupt_checkpoint_treated_as_none_witness :
    load_checkpoint_parsed (some (.obj [("course_id", .str "r1")])) = .ok none ∧
    engineRun [] none [] = runStages [] [] :=
  corrupt_checkpoint_treated_as_none _ [] [] (Or.inr ⟨_, rfl, Or.inl rfl⟩)

/-- Lookup on a non-empty association list. -/
theorem dictGet_cons {α : Type} (a : String) (b : α) (rest : List (String × α))
    (k : String) :
    dictGet ((a, b) :: rest) k = if a = k then some b else dictGet rest k := by
  by_cases h : a = k
  · subst h
    simp [dictGet]
  · have hb : ¬ (((a, b).1 == k) = true) := by simp [h]
    simp [dictGet, List.find?_cons_of_neg _ hb, h]

/-- Lookup after a single dict assignment: the assigned key reads back the
assigned value, every other key is untouched. -/
theorem dictGet_dictSet {α : Type} (d : List (String × α)) (k k' : String) (v : α) :
    dictGet (dictSet d k v) k' = if k' = k then some v else dictGet d k' := by
  induction d with
  | nil =>
      rw [show dictSet ([] : List (String × α)) k v = [(k, v)] from rfl, dictGet_cons]
      by_cases h : k = k'
      · rw [if_pos h, if_pos h.symm]
      · rw [if_neg h, if_neg (Ne.symm h)]
  | cons p rest ih =>
      rcases p with ⟨a, b⟩
      by_cases hak : a = k
      · subst hak
        rw [show dictSet ((a, b) :: rest) a v = (a, v) :: rest by simp [dictSet],
            dictGet_cons, dictGet_cons]
        by_cases h : a = k'
        · rw [if_pos h, if_pos h.symm]
        · rw [if_neg h, if_neg (Ne.symm h), if_neg h]
      · rw [show dictSet ((a, b) :: rest) k v = (a, b) :: dictSet rest k v by
              simp [dictSet, hak],
            dictGet_cons, dictGet_cons, ih]
        by_cases h1 : a = k'
        · rw [if_pos h1, if_neg (fun hh => hak (h1.trans hh)), if_pos h1]
        · rw [if_neg h1]
          by_cases h2 : k' = k
          · rw [if_pos h2, if_pos h2]
          · rw [if_neg h2, if_neg h2, if_neg h1]

/-- Keys absent from the updating dict are untouched by `dictUpdate`. -/
theorem dictGet_dictUpdate_none {α : Type} (e : List (String × α)) :
    ∀ (d : List (String × α)) (k : String), dictGet e k = none →
      dictGet (dictUpdate d e) k = dictGet d k := by
  induction e with
  | nil => intro d k _; rfl
  | cons p rest ih =>
      intro d k h
      rcases p with ⟨a, b⟩
      rw [dictGet_cons] at h
      by_cases hak : a = k
      · rw [if_pos hak] at h
        exact absurd h (by simp)
      · rw [if_neg hak] at h
        rw [show dictUpdate d ((a, b) :: rest) = dictUpdate (dictSet d a b) rest from rfl,
            ih _ _ h, dictGet_dictSet, if_neg (fun hh => hak hh.symm)]

/-- Keys present in the updating dict (whose keys are pairwise distinct,
as in any Python dict) read back the updating dict's value after
`dictUpdate`. -/
theorem dictGet_dictUpdate_some {α : Type} (e : List (String × α)) :
    ∀ (d : List (String × α)) (k : String) (v : α),
      (e.map Prod.fst).Nodup → dictGet e k = some v →
      dictGet (dictUpdate d e) k = some v := by
  induction e with
  | nil => intro d k v _ h; exact absurd h (by simp [dictGet])
  | cons p rest ih =>
      intro d k v hnd h
      rcases p with ⟨a, b⟩
      rw [dictGet_cons] at h
      have step : dictUpdate d ((a, b) :: rest) = dictUpdate (dictSet d a b) rest := rfl
      by_cases hak : a = k
      · rw [if_pos hak] at h
        have hnotin : ∀ q ∈ rest, (q : String × α).1 ≠ k := by
          intro q hq hqk
          exact (List.nodup_cons.mp hnd).1
            (List.mem_map.mpr ⟨q, hq, hqk.trans hak.symm⟩)
        have hrestnone : dictGet rest k = none := by
          simp only [dictGet, Option.map_eq_none']
          rw [List.find?_eq_none]
          intro x hx
          simp [hnotin x hx]
        rw [step, dictGet_dictUpdate_none rest _ _ hrestnone, dictGet_dictSet,
            if_pos hak.symm]
        exact h
      · rw [if_neg hak] at h
        rw [step]
        exact ih _ _ _ (List.nodup_cons.mp hnd).2 h

/-- Claim C6: the context a resumed run starts with is the initial
context updated with the checkpoint context — on a key collision the
checkpoint's value wins, and keys present only in the initial context are
preserved. -/
theorem resume_merge_checkpoint_wins (init saved : Ctx)
    (hnd : (saved.map Prod.fst).Nodup) :
    (∀ k v, dictGet saved k = some v → dictGet (dictUpdate init saved) k = some v) ∧
    (∀ k, dictGet saved k = none → dictGet (dictUpdate init saved) k = dictGet init k) ∧
    (∀ stages nm, engineRun stages (some (nm, saved)) init =
       runStages (stages.drop (startIndex stages nm)) (dictUpdate init saved)) :=
  ⟨fun k v h => dictGet_dictUpdate_some saved init k v hnd h,
   fun k h => dictGet_dictUpdate_none saved init k h,
   fun _ _ => rfl⟩

/-- Witness for C6: merging `{a: 1, x: 2}` with checkpoint `{x: 3}` keeps
the checkpoint's value for `x`. -/
theorem resume_merge_checkpoint_wins_witness :
    dictGet (dictUpdate
      [("a", PyValue.json (.num 1)), ("x", PyValue.json (.num 2))]
      [("x", PyValue.json (.num 3))]) "x" = some (PyValue.json (.num 3)) :=
  (resume_merge_checkpoint_wins
    [("a", PyValue.json (.num 1)), ("x", PyValue.json (.num 2))]
    [("x", PyValue.json (.num 3))] (by simp)).1 "x" _ rfl

/-- Every event the stage loop emits names a stage of the list it ran. -/
theorem runStages_event_stage_mem (stages : List StageM) :
    ∀ (ctx : Ctx), ∀ ev ∈ (runStages stages ctx).events,
      ev.stage ∈ stages.map (fun st => st.name) := by
  induction stages with
  | nil => intro ctx ev hev; simp [runStages] at hev
  | cons s rest ih =>
      intro ctx ev hev
      cases hv : s.validate ctx with
      | error msg =>
          simp [runStages, hv, startEv, errorEv] at hev
          rcases hev with rfl | rfl <;> simp
      | ok b =>
          cases b with
          | false =>
              simp [runStages, hv, startEv, errorEv] at hev
              rcases hev with rfl | rfl <;> simp
          | true =>
              cases he : s.execute ctx with
              | error msg =>
                  simp [runStages, hv, he, startEv, errorEv] at hev
                  rcases hev with rfl | rfl <;> simp
              | ok ctx2 =>
                  simp [runStages, hv, he, startEv, completeEv] at hev
                  rcases hev with rfl | rfl | hev
                  · simp
                  · simp
                  · simp [ih ctx2 ev hev]

/-- Stage loop over an appended list: when the first part succeeds, its
events and checkpoints are a prefix of the whole run's, and the rest runs
from the first part's final context. -/
theorem runStages_append (l1 l2 : List StageM) :
    ∀ (ctx ctx' : Ctx), (runStages l1 ctx).result = .ok ctx' →
      runStages (l1 ++ l2) ctx =
        ⟨(runStages l1 ctx).events ++ (runStages l2 ctx').events,
         (runStages l1 ctx).checkpoints ++ (runStages l2 ctx').checkpoints,
         (runStages l2 ctx').result⟩ := by
  induction l1 with
  | nil =>
      intro ctx ctx' h
      have : ctx = ctx' := by simpa [runStages] using h
      subst this
      simp [runStages]
  | cons s rest ih =>
      intro ctx ctx' h
      cases hv : s.validate ctx with
      | error msg => rw [runStages] at h; simp [hv] at h
      | ok b =>
          cases b with
          | false => rw [runStages] at h; simp [hv] at h
          | true =>
              cases he : s.execute ctx with
              | error msg => rw [runStages] at h; simp [hv, he] at h
              | ok ctx2 =>
                  have h2 : (runStages rest ctx2).result = .ok ctx' := by
                    rw [runStages] at h; simpa [hv, he] using h
                  have := ih ctx2 ctx' h2
                  simp [runStages, hv, he, this]

/-- A failing stage turns into exactly one `stage_start` and one
`stage_error` event, no checkpoint, and the corresponding raised error. -/
theorem runStages_cons_of_failure (s : StageM) (rest : List StageM) (ctx : Ctx)
    (e : RunErr) (h : stageFailure s ctx = some e) :
    runStages (s :: rest) ctx = ⟨[startEv s.name, errorEv s.name e], [], .error e⟩ := by
  unfold stageFailure at h
  cases hv : s.validate ctx with
  | error msg =>
      rw [hv] at h
      simp only [Option.some_inj] at h
      simp [runStages, hv, ← h]
  | ok b =>
      cases b with
      | false =>
          rw [hv] at h
          simp only [Option.some_inj] at h
          simp [runStages, hv, ← h]
      | true =>
          cases he : s.execute ctx with
          | error msg =>
              rw [hv, he] at h
              simp only [Option.some_inj] at h
              simp [runStages, hv, he, ← h]
          | ok ctx2 =>
              rw [hv, he] at h
              simp at h

/-- The error produced by a failing stage names that stage. -/
theorem stageFailure_stageName (s : StageM) (ctx : Ctx) (e : RunErr)
    (h : stageFailure s ctx = some e) : e.stageName = s.name := by
  unfold stageFailure at h
  cases hv : s.validate ctx with
  | error msg =>
      rw [hv] at h
      simp only [Option.some_inj] at h
      simp [← h, RunErr.stageName]
  | ok b =>
      cases b with
      | false =>
          rw [hv] at h
          simp only [Option.some_inj] at h
          simp [← h, RunErr.stageName]
      | true =>
          cases he : s.execute ctx with
          | error msg =>
              rw [hv, he] at h
              simp only [Option.some_inj] at h
              simp [← h, RunErr.stageName]
          | ok ctx2 =>
              rw [hv, he] at h
              simp at h

/-- Claim C4: when a stage fails (validation returning false or raising,
or execution raising) after a successful prefix, the run's events are the
prefix's events followed by exactly the failing stage's `stage_start` and
`stage_error`, no checkpoint beyond the prefix's is written, no later
stage contributes anything, and the run raises an error naming the
failing stage. -/
theorem stage_failure_aborts_run (done rest : List StageM) (s : StageM)
    (ctx ctx' : Ctx) (e : RunErr)
    (hpre : (runStages done ctx).result = .ok ctx')
    (hfail : stageFailure s ctx' = some e) :
    runStages (done ++ s :: rest) ctx =
      ⟨(runStages done ctx).events ++ [startEv s.name, errorEv s.name e],
       (runStages done ctx).checkpoints,
       .error e⟩ ∧
    e.stageName = s.name := by
  refine ⟨?_, stageFailure_stageName s ctx' e hfail⟩
  rw [runStages_append done (s :: rest) ctx ctx' hpre,
      runStages_cons_of_failure s rest ctx' e hfail]
  simp

/-- Concrete stage used in the scenario witnesses: validation always
passes and execution adds the key `"a"`. -/
def stageA : StageM :=
  ⟨"A", fun _ => .ok true, fun c => .ok (dictSet c "a" (PyValue.json (.str "done")))⟩

/-- Concrete stage whose validation always fails. -/
def stageB : StageM := ⟨"B", fun _ => .ok false, fun c => .ok c⟩

/-- Concrete stage that passes validation and leaves the context alone. -/
def stageC : StageM := ⟨"C", fun _ => .ok true, fun c => .ok c⟩

/-- Witness for C4, the claim's 3-stage scenario: with stages [A, B, C]
where B's validation fails, the run from the empty context emits exactly
[A:start, A:complete, B:start, B:error], checkpoints only stage A, and
raises an error naming stage B. -/
theorem stage_failure_aborts_run_witness :
    runStages [stageA, stageB, stageC] [] =
      ⟨[⟨.stage_start, "A", .noData⟩,
        ⟨.stage_complete, "A", .ctxKeys ["a"]⟩,
        ⟨.stage_start, "B", .noData⟩,
        ⟨.stage_error, "B", .errInfo (.preconditionsNotMet "B")⟩],
       [("A", [("a", PyValue.json (.str "done"))])],
       .error (.preconditionsNotMet "B")⟩ ∧
    RunErr.stageName (.preconditionsNotMet "B") = "B" :=
  stage_failure_aborts_run [stageA] [stageC] stageB []
    [("a", PyValue.json (.str "done"))] (.preconditionsNotMet "B") rfl rfl

/-- Claim C5: a checkpoint naming a stage of the list makes the run start
immediately after (the first stage with) that name, on the merged
context, and every emitted event names a stage of the remaining suffix;
a checkpoint naming no stage of the list makes the run start at index 0. -/
theorem resume_starts_after_checkpointed_stage (stages : List StageM) (nm : String)
    (saved init : Ctx) (i : Nat) :
    (stages.findIdx? (fun st => st.name == nm) = some i →
       engineRun stages (some (nm, saved)) init =
         runStages (stages.drop (i + 1)) (dictUpdate init saved) ∧
       ∀ ev ∈ (engineRun stages (some (nm, saved)) init).events,
         ev.stage ∈ (stages.drop (i + 1)).map (fun st => st.name)) ∧
    (stages.findIdx? (fun st => st.name == nm) = none →
       engineRun stages (some (nm, saved)) init =
         runStages stages (dictUpdate init saved)) := by
  constructor
  · intro h
    have hs : startIndex stages nm = i + 1 := by simp [startIndex, h]
    refine ⟨by simp [engineRun, hs], ?_⟩
    intro ev hev
    have : engineRun stages (some (nm, saved)) init =
        runStages (stages.drop (i + 1)) (dictUpdate init saved) := by
      simp [engineRun, hs]
    rw [this] at hev
    exact runStages_event_stage_mem (stages.drop (i + 1)) (dictUpdate init saved) ev hev
  · intro h
    have hs : startIndex stages nm = 0 := by simp [startIndex, h]
    simp [engineRun, hs]

/-- Witness for C5, the claim's scenario: checkpoint at stage "A" with
context x = 1, stage list [A, B] — only B runs, with x = 1 in its input
context. -/
theorem resume_starts_after_checkpointed_stage_witness :
    engineRun [stageA, stageB] (some ("A", [("x", PyValue.json (.num 1))])) [] =
      runStages [stageB] [("x", PyValue.json (.num 1))] :=
  (((resume_starts_after_checkpointed_stage [stageA, stageB] "A"
      [("x", PyValue.json (.num 1))] [] 0).1 (by decide)).1)

/-- Claim C10: a subscriber raising inside `emit_async` is caught — every
other subscriber (before and after it) is still invoked for the event,
the emission itself completes — and the engine's run with any subscriber
list produces the same events, checkpoints and result as the run with no
subscribers. -/
theorem subscriber_exception_isolated (pre post : List Callback) (cb : Callback)
    (ev : Event) (msg : String) (subs : List Callback) (stages : List StageM)
    (ctx : Ctx) (h : cb ev = .error msg) :
    emit_async (pre ++ cb :: post) ev =
      emit_async pre ev ++ .error msg :: emit_async post ev ∧
    (runStagesSubs subs stages ctx).1 = runStages stages ctx := by
  constructor
  · induction pre with
    | nil => simp [emit_async, h]
    | cons q rest ih => simp [emit_async, ih]
  · induction stages generalizing ctx with
    | nil => rfl
    | cons s rest ih =>
        cases hv : s.validate ctx with
        | error m => simp [runStagesSubs, runStages, hv]
        | ok b =>
            cases b with
            | false => simp [runStagesSubs, runStages, hv]
            | true =>
                cases he : s.execute ctx with
                | error m => simp [runStagesSubs, runStages, hv, he]
                | ok ctx2 => simp [runStagesSubs, runStages, hv, he, ih ctx2]

/-- Concrete raising callback for the C10 witness. -/
def badCb : Callback := fun _ => .error "boom"

/-- Concrete well-behaved callback for the C10 witness. -/
def okCb : Callback := fun _ => .ok ()

/-- Witness for C10: with a raising subscriber between two normal ones,
all three are invoked, and a run of [A] with the raising subscriber
matches the subscriber-free run. -/
theorem subscriber_exception_isolated_witness :
    emit_async [okCb, badCb, okCb] (startEv "A") =
      [.ok (), .error "boom", .ok ()] ∧
    (runStagesSubs [badCb] [stageA] []).1 = runStages [stageA] [] :=
  subscriber_exception_isolated [okCb] [okCb] badCb (startEv "A") "boom"
    [badCb] [stageA] [] rfl

/-- Eviction is a no-op when the requested provider is not local. -/
theorem evictForLocal_not_ollama (st : RouterState) (p k : String)
    (hp : (p == "ollama") = false) : evictForLocal st p k = (st, []) := by
  unfold evictForLocal
  simp [hp]

/-- Eviction is a no-op when no local model is active. -/
theorem evictForLocal_no_active (st : RouterState) (p k : String)
    (h : st.active = none) : evictForLocal st p k = (st, []) := by
  unfold evictForLocal
  cases hp : (p == "ollama") <;> simp [hp, h]

/-- Eviction is a no-op when the active local model is the requested one. -/
theorem evictForLocal_same (st : RouterState) (p k ak : String)
    (h : st.active = some ak) (hak : (ak == k) = true) :
    evictForLocal st p k = (st, []) := by
  unfold evictForLocal
  cases hp : (p == "ollama") <;> simp [hp, h, hak]

/-- Switching to a different local model removes the active entry from
the cache, clears the active marker, and unloads the evicted key (when
its provider was cached). -/
theorem evictForLocal_switch (st : RouterState) (p k ak : String)
    (hp : (p == "ollama") = true) (h : st.active = some ak)
    (hak : (ak == k) = false) :
    evictForLocal st p k =
      (⟨st.providers.filter (fun e => !(e.key == ak)), none⟩,
       if (st.providers.any fun e => e.key == ak) = true then [ak] else []) := by
  unfold evictForLocal
  simp [hp, h, hak]

/-- Cache hit: `get_provider` returns the cached instance unchanged. -/
theorem get_provider_cached (s : Settings) (st : RouterState) (pm : String × String)
    (hc : (st.providers.any fun e => e.key == cacheKey pm.1 pm.2) = true) :
    get_provider s st pm = (st, [], true) := by
  unfold get_provider
  simp [hc]

/-- Cache miss with successful construction: evict if needed, then cache
the new provider and mark it active when local. -/
theorem get_provider_uncached_ok (s : Settings) (st : RouterState) (pm : String × String)
    (hc : (st.providers.any fun e => e.key == cacheKey pm.1 pm.2) = false)
    (hcr : createProviderOk s pm.1 = true) :
    get_provider s st pm =
      (⟨(evictForLocal st pm.1 (cacheKey pm.1 pm.2)).1.providers ++
          [⟨cacheKey pm.1 pm.2, pm.1, pm.2⟩],
        if (pm.1 == "ollama") = true then some (cacheKey pm.1 pm.2)
        else (evictForLocal st pm.1 (cacheKey pm.1 pm.2)).1.active⟩,
       (evictForLocal st pm.1 (cacheKey pm.1 pm.2)).2, true) := by
  unfold get_provider
  simp [hc, hcr]

/-- Cache miss with failing construction: the raised error leaves the
state as the eviction block left it. -/
theorem get_provider_uncached_fail (s : Settings) (st : RouterState) (pm : String × String)
    (hc : (st.providers.any fun e => e.key == cacheKey pm.1 pm.2) = false)
    (hcr : createProviderOk s pm.1 = false) :
    get_provider s st pm =
      ((evictForLocal st pm.1 (cacheKey pm.1 pm.2)).1,
       (evictForLocal st pm.1 (cacheKey pm.1 pm.2)).2, false) := by
  unfold get_provider
  simp [hc, hcr]

/-- An entry removed by the eviction block is unloaded exactly once: the
block's unload list is exactly `[its key]`. -/
theorem evictForLocal_unloads_removed (st : RouterState) (p k : String)
    (e : ProviderEntry) (he : e ∈ st.providers)
    (hg : e ∉ (evictForLocal st p k).1.providers) :
    (evictForLocal st p k).2 = [e.key] := by
  by_cases hp : (p == "ollama") = true
  · cases hact : st.active with
    | none => rw [evictForLocal_no_active st p k hact] at hg; exact absurd he hg
    | some ak =>
        by_cases hak : (ak == k) = true
        · rw [evictForLocal_same st p k ak hact hak] at hg
          exact absurd he hg
        · rw [evictForLocal_switch st p k ak hp hact (by simpa using hak)] at hg ⊢
          have hkey : e.key = ak := by
            by_contra hne
            exact hg (List.mem_filter.mpr ⟨he, by simp [hne]⟩)
          have hany : (st.providers.any fun x => x.key == ak) = true :=
            List.any_eq_true.mpr ⟨e, he, by simp [hkey]⟩
          simp [hany, hkey]
  · rw [evictForLocal_not_ollama st p k (by simpa using hp)] at hg
    exact absurd he hg

/-- An entry removed from the cache by a `get_provider` call is unloaded
exactly once before its removal: the call's unload list is exactly
`[its key]`. -/
theorem get_provider_unloads_removed (s : Settings) (st : RouterState)
    (pm : String × String) (e : ProviderEntry)
    (he : e ∈ st.providers) (hg : e ∉ (get_provider s st pm).1.providers) :
    (get_provider s st pm).2.1 = [e.key] := by
  by_cases hc : (st.providers.any fun x => x.key == cacheKey pm.1 pm.2) = true
  · rw [get_provider_cached s st pm hc] at hg; exact absurd he hg
  · by_cases hcr : createProviderOk s pm.1 = true
    · rw [get_provider_uncached_ok s st pm (by simpa using hc) hcr] at hg ⊢
      have hg1 : e ∉ (evictForLocal st pm.1 (cacheKey pm.1 pm.2)).1.providers := by
        intro hmem
        exact hg (List.mem_append.mpr (Or.inl hmem))
      exact evictForLocal_unloads_removed st pm.1 (cacheKey pm.1 pm.2) e he hg1
    · rw [get_provider_uncached_fail s st pm (by simpa using hc)
          (by simpa using hcr)] at hg ⊢
      exact evictForLocal_unloads_removed st pm.1 (cacheKey pm.1 pm.2) e he hg

/-- Appending an entry with a fresh key preserves distinctness of keys. -/
theorem nodup_keys_append_new (l : List ProviderEntry) (x : ProviderEntry)
    (hnd : (l.map (fun e => e.key)).Nodup) (hx : x.key ∉ l.map (fun e => e.key)) :
    ((l ++ [x]).map (fun e => e.key)).Nodup := by
  rw [List.map_append]
  refine hnd.append (List.nodup_singleton _) ?_
  intro b hb hbx
  rw [List.map_singleton, List.mem_singleton] at hbx
  subst hbx
  exact hx hb

/-- A `get_provider` call preserves the router invariant. -/
theorem evictForLocal_inv (st : RouterState) (p k : String)
    (h : RouterInv st) : RouterInv (evictForLocal st p k).1 := by
  obtain ⟨hnd, hloc⟩ := h
  by_cases hp : (p == "ollama") = true
  · cases hact : st.active with
    | none => rw [evictForLocal_no_active st p k hact]; exact ⟨hnd, hloc⟩
    | some ak =>
        by_cases hak : (ak == k) = true
        · rw [evictForLocal_same st p k ak hact hak]; exact ⟨hnd, hloc⟩
        · rw [evictForLocal_switch st p k ak hp hact (by simpa using hak)]
          constructor
          · exact hnd.sublist
              (List.Sublist.map (fun e : ProviderEntry => e.key) (List.filter_sublist _))
          · intro e he hpn
            exfalso
            have he' : e ∈ st.providers.filter (fun x => !(x.key == ak)) := he
            have hmem := List.mem_of_mem_filter he'
            have hkey := hloc e hmem hpn
            rw [hact] at hkey
            have hne : (!(e.key == ak)) = true := (List.mem_filter.mp he').2
            simp only [Option.some_inj] at hkey
            simp [← hkey] at hne
  · rw [evictForLocal_not_ollama st p k (by simpa using hp)]
    exact ⟨hnd, hloc⟩

/-- No entry of the state after eviction has the key of an uncached pair. -/
theorem evictForLocal_keys_subset (st : RouterState) (p k : String) :
    ∀ x ∈ (evictForLocal st p k).1.providers, x ∈ st.providers := by
  intro x hx
  by_cases hp : (p == "ollama") = true
  · cases hact : st.active with
    | none => rw [evictForLocal_no_active st p k hact] at hx; exact hx
    | some ak =>
        by_cases hak : (ak == k) = true
        · rw [evictForLocal_same st p k ak hact hak] at hx; exact hx
        · rw [evictForLocal_switch st p k ak hp hact (by simpa using hak)] at hx
          exact List.mem_of_mem_filter hx
  · rw [evictForLocal_not_ollama st p k (by simpa using hp)] at hx
    exact hx

/-- Local entries surviving eviction still match the active marker. -/
theorem evictForLocal_local (st : RouterState) (p k : String)
    (h : RouterInv st) :
    ∀ e ∈ (evictForLocal st p k).1.providers, e.pname = "ollama" →
      (evictForLocal st p k).1.active = some e.key :=
  (evictForLocal_inv st p k h).2

/-- A `get_provider` call preserves the router invariant. -/
theorem get_provider_inv (s : Settings) (st : RouterState) (pm : String × String)
    (h : RouterInv st) : RouterInv (get_provider s st pm).1 := by
  by_cases hc : (st.providers.any fun x => x.key == cacheKey pm.1 pm.2) = true
  · rw [get_provider_cached s st pm hc]; exact h
  · have hknotin : cacheKey pm.1 pm.2 ∉ st.providers.map (fun x => x.key) := by
      intro hmem
      rcases List.mem_map.mp hmem with ⟨x, hx, hxk⟩
      exact hc (List.any_eq_true.mpr ⟨x, hx, by simp [hxk]⟩)
    have hknotin1 :
        cacheKey pm.1 pm.2 ∉
          (evictForLocal st pm.1 (cacheKey pm.1 pm.2)).1.providers.map
            (fun x => x.key) := by
      intro hmem
      rcases List.mem_map.mp hmem with ⟨x, hx, hxk⟩
      exact hknotin (List.mem_map.mpr
        ⟨x, evictForLocal_keys_subset st pm.1 (cacheKey pm.1 pm.2) x hx, hxk⟩)
    have hinv1 := evictForLocal_inv st pm.1 (cacheKey pm.1 pm.2) h
    by_cases hcr : createProviderOk s pm.1 = true
    case neg =>
      rw [get_provider_uncached_fail s st pm (by simpa using hc) (by simpa using hcr)]
      exact hinv1
    case pos =>
      rw [get_provider_uncached_ok s st pm (by simpa using hc) hcr]
      refine ⟨nodup_keys_append_new _ _ hinv1.1 hknotin1, ?_⟩
      by_cases hp : (pm.1 == "ollama") = true
      · rw [if_pos hp]
        intro e he _
        rcases List.mem_append.mp he with hold | hnew
        · -- any surviving old local entry was the active one, which the
          -- eviction block either kept (same key) or removed; in the kept
          -- case its key is the requested one — impossible, it is uncached
          have hpe : e.pname = "ollama" := by assumption
          have hkey := hinv1.2 e hold hpe
          -- the state after eviction has active = none or the same key
          by_cases hsame : (evictForLocal st pm.1 (cacheKey pm.1 pm.2)).1.active
              = some e.key
          · exfalso
            -- e survived eviction while being local, so eviction kept the
            -- active entry: its key must differ from the requested key,
            -- yet the old invariant ties it to st.active; derive the
            -- contradiction from the concrete eviction cases
            cases hact : st.active with
            | none =>
                rw [evictForLocal_no_active st pm.1 (cacheKey pm.1 pm.2) hact] at hold
                have := h.2 e hold hpe
                rw [hact] at this
                exact Option.noConfusion this
            | some ak =>
                by_cases hak : (ak == cacheKey pm.1 pm.2) = true
                · rw [evictForLocal_same st pm.1 (cacheKey pm.1 pm.2) ak hact hak]
                    at hold
                  have hkey2 := h.2 e hold hpe
                  rw [hact] at hkey2
                  simp only [Option.some_inj] at hkey2
                  have hakk : ak = cacheKey pm.1 pm.2 := by simpa using hak
                  exact hknotin (List.mem_map.mpr ⟨e, hold, by rw [← hkey2, hakk]⟩)
                · rw [evictForLocal_switch st pm.1 (cacheKey pm.1 pm.2) ak hp hact
                      (by simpa using hak)] at hold
                  have hold' : e ∈ st.providers.filter (fun x => !(x.key == ak)) := hold
                  have hkey2 := h.2 e (List.mem_of_mem_filter hold') hpe
                  rw [hact] at hkey2
                  have hne : (!(e.key == ak)) = true := (List.mem_filter.mp hold').2
                  simp only [Option.some_inj] at hkey2
                  simp [← hkey2] at hne
          · exact absurd hkey hsame
        · rw [List.mem_singleton] at hnew
          subst hnew
          rfl
      · rw [if_neg hp]
        intro e he hpe
        rcases List.mem_append.mp he with hold | hnew
        · exact hinv1.2 e hold hpe
        · exfalso
          rw [List.mem_singleton] at hnew
          subst hnew
          have hpm : pm.1 = "ollama" := hpe
          rw [hpm] at hp
          simp at hp

/-- A list of entries with pairwise-distinct keys that all carry the same
key has at most one element. -/
theorem length_le_one_of_key_eq (l : List ProviderEntry) (k : String)
    (hnd : (l.map (fun e => e.key)).Nodup) (hall : ∀ x ∈ l, x.key = k) :
    l.length ≤ 1 := by
  cases l with
  | nil => simp
  | cons a t =>
      cases t with
      | nil => simp
      | cons b u =>
          exfalso
          have h1 : a.key = k := hall a (by simp)
          have h2 : b.key = k := hall b (by simp)
          have hna : a.key ∉ (b :: u).map (fun e => e.key) :=
            (List.nodup_cons.mp (by simpa using hnd)).1
          exact hna (by simp [h1, h2])

/-- Under the router invariant the cache holds at most one local entry. -/
theorem localCount_le_one (st : RouterState) (h : RouterInv st) :
    localCount st ≤ 1 := by
  obtain ⟨hnd, hloc⟩ := h
  cases hact : st.active with
  | none =>
      have hempty : st.providers.filter (fun e => e.pname == "ollama") = [] := by
        rw [List.filter_eq_nil_iff]
        intro e he hpe
        have := hloc e he (by simpa using hpe)
        rw [hact] at this
        exact Option.noConfusion this
      simp [localCount, hempty]
  | some ak =>
      refine length_le_one_of_key_eq _ ak
        (hnd.sublist
          (List.Sublist.map (fun e : ProviderEntry => e.key) (List.filter_sublist _))) ?_
      intro x hx
      have hmem := List.mem_of_mem_filter hx
      have hpn : x.pname = "ollama" := by simpa using (List.of_mem_filter hx)
      have := hloc x hmem hpn
      rw [hact] at this
      simp only [Option.some_inj] at this
      exact this.symm

/-- Along every trace of `get_provider` calls from an invariant-satisfying
state, every reached state has at most one local entry, and every entry a
call removes is unloaded exactly once by that call. -/
theorem routerSteps_all (s : Settings) (tasks : List String) :
    ∀ (st : RouterState), RouterInv st →
      ∀ step ∈ routerSteps s tasks st,
        localCount step.post ≤ 1 ∧
        ∀ e ∈ step.pre.providers, e ∉ step.post.providers →
          step.unloads = [e.key] := by
  induction tasks with
  | nil => intro st _ step hstep; simp [routerSteps] at hstep
  | cons t rest ih =>
      intro st hinv step hstep
      simp only [routerSteps, List.mem_cons] at hstep
      rcases hstep with rfl | hstep
      · refine ⟨localCount_le_one _ (get_provider_inv s st (resolve_task s t) hinv), ?_⟩
        intro e he hg
        exact get_provider_unloads_removed s st (resolve_task s t) e he hg
      · exact ih _ (get_provider_inv s st (resolve_task s t) hinv) step hstep

/-- Claim C1: along every sequence of `get_provider` calls against one
router (no concurrency), every observable state between calls has at most
one cache entry whose provider is `"ollama"`, and whenever a call evicts
a local provider, `unload()` is called exactly once on it before its
removal from the cache. -/
theorem router_single_active_local (s : Settings) (tasks : List String) :
    (∀ step ∈ routerTrace s tasks, localCount step.post ≤ 1) ∧
    (∀ step ∈ routerTrace s tasks, ∀ e ∈ step.pre.providers,
        e ∉ step.post.providers → step.unloads = [e.key]) := by
  have hinv0 : RouterInv initialRouterState := by
    constructor
    · exact List.nodup_nil
    · intro e he
      simp [initialRouterState] at he
  constructor
  · intro step hstep
    exact (routerSteps_all s tasks initialRouterState hinv0 step hstep).1
  · intro step hstep e he hg
    exact (routerSteps_all s tasks initialRouterState hinv0 step hstep).2 e he hg

/-- Witness for C1 on the trace of tasks [outline, code_generation] with
default settings: after the second call the cache holds the single local
entry for the coder model, and the first model was unloaded exactly once
when it was evicted. -/
theorem router_single_active_local_witness :
    localCount ⟨[⟨"ollama:qwen2.5-coder:14b", "ollama", "qwen2.5-coder:14b"⟩],
        some "ollama:qwen2.5-coder:14b"⟩ ≤ 1 ∧
    (["ollama:qwen2.5:14b"] : List String) =
      [(⟨"ollama:qwen2.5:14b", "ollama", "qwen2.5:14b"⟩ : ProviderEntry).key] :=
  ⟨(router_single_active_local {} ["outline", "code_generation"]).1
      ⟨⟨[⟨"ollama:qwen2.5:14b", "ollama", "qwen2.5:14b"⟩], some "ollama:qwen2.5:14b"⟩,
       ⟨[⟨"ollama:qwen2.5-coder:14b", "ollama", "qwen2.5-coder:14b"⟩],
        some "ollama:qwen2.5-coder:14b"⟩,
       ["ollama:qwen2.5:14b"]⟩ (by decide),
   (router_single_active_local {} ["outline", "code_generation"]).2
      ⟨⟨[⟨"ollama:qwen2.5:14b", "ollama", "qwen2.5:14b"⟩], some "ollama:qwen2.5:14b"⟩,
       ⟨[⟨"ollama:qwen2.5-coder:14b", "ollama", "qwen2.5-coder:14b"⟩],
        some "ollama:qwen2.5-coder:14b"⟩,
       ["ollama:qwen2.5:14b"]⟩ (by decide)
      ⟨"ollama:qwen2.5:14b", "ollama", "qwen2.5:14b"⟩ (by decide) (by decide)⟩

end CourseFactory
